import Mathlib

/-!
Verification of the custom-op registration / schema synthesis layer and the
CUDA stream-notification layer of `onnxruntime/core/session/custom_ops.cc`
(plus the CUDA stream handle file appended to it), as a shallow embedding.

Machine integers are modelled as `Nat`/`Int`; fallible C++ code (ORT_ENFORCE /
ORT_RETURN_IF_NOT / ORT_THROW) is modelled with `Except String`.  Plugin
function-pointer tables (`OrtCustomOp`) are modelled as a structure of callable
handlers plus a version integer, and every invocation of a plugin handler made
by the host during registration is logged in an `OpQuery` trace so that
version-gating claims are expressible.
-/

/-- `ONNXTensorElementDataType` (the tensor element type enum).  Only the
constructors relevant to the sampled code are listed; `undefined` is
`ONNX_TENSOR_ELEMENT_DATA_TYPE_UNDEFINED`, `float` is float32, `double` is
float64. -/
inductive ONNXTensorElementDataType where
  | undefined
  | float
  | uint8
  | int8
  | uint16
  | int16
  | int32
  | int64
  | stringT
  | boolT
  | float16
  | double
  | uint32
  | uint64
deriving DecidableEq, Repr

abbrev DType := ONNXTensorElementDataType

/-- `OrtCustomOpInputOutputCharacteristic`. -/
inductive Characteristic where
  | inputOutputRequired
  | inputOutputOptional
  | inputOutputVariadic
deriving DecidableEq, Repr

/-- `onnx::OpSchema::FormalParameterOption`. -/
inductive FormalParameterOption where
  | single
  | optional
  | variadic
deriving DecidableEq, Repr

/-- One formal parameter of a synthesized `OpSchema` (the fields that
`CreateCustomRegistry` sets via `schema.Input` / `schema.Output`). -/
structure FormalParameter where
  name : String
  typeStr : String
  option : FormalParameterOption
  isHomogeneous : Bool
  minArity : Int
deriving DecidableEq, Repr

/-- The part of an `onnx::OpSchema` populated by `CreateCustomRegistry` that
the claims are about. -/
structure OpSchema where
  name : String
  inputs : List FormalParameter
  outputs : List FormalParameter
deriving DecidableEq, Repr

/-- The `OrtCustomOp` plugin descriptor: a function-pointer capability table
plus an integer `version`.  `GetVariadic{In,Out}put{MinArity,Homogeneity}`
take no index in the ABI, so they are plain values here. -/
structure OrtCustomOp where
  name : String
  version : Nat
  inputTypeCount : Nat
  outputTypeCount : Nat
  getInputType : Nat → DType
  getOutputType : Nat → DType
  getInputCharacteristic : Nat → Characteristic
  getOutputCharacteristic : Nat → Characteristic
  variadicInputMinArity : Int
  variadicInputHomogeneity : Int
  variadicOutputMinArity : Int
  variadicOutputHomogeneity : Int
  getInputMemoryType : Nat → Int
  executionProviderType : Option String

/-- A host-side invocation of one of the plugin's handlers, recorded during
registration so that version-gating can be stated. -/
inductive OpQuery where
  | inputChar (i : Nat)
  | outputChar (i : Nat)
  | varInMinArity
  | varInHomog
  | varOutMinArity
  | varOutHomog
  | inputMemType (i : Nat)
  | inputType (i : Nat)
  | outputType (i : Nat)
deriving DecidableEq, Repr

/-- `Except.isOk` style discriminator (kept local and executable). -/
def exceptIsOk {ε α : Type} : Except ε α → Bool
  | .ok _ => true
  | .error _ => false

/-! ## CustomOpKernel (custom_ops.cc lines 377–399) -/

/-- A call the host makes into the plugin's kernel lifecycle table. -/
inductive HostCall where
  | createKernel
  | kernelCompute
deriving DecidableEq, Repr

/-- `CustomOpKernel::CustomOpKernel`: if `op_.version > ORT_API_VERSION` it
throws "Unsupported version ..." (before calling anything on the plugin),
otherwise it calls the plugin's `CreateKernel`.  The second component is the
list of plugin lifecycle calls made. -/
def customOpKernelConstruct (opVersion hostApiVersion : Nat) (opName : String) :
    Except String Unit × List HostCall :=
  if hostApiVersion < opVersion then
    (.error ("Unsupported version '" ++ toString opVersion ++ "' in custom op '" ++ opName), [])
  else
    (.ok (), [.createKernel])

/-- Minimal status type for the C API helpers (`Status::OK()` /
`ORT_MAKE_STATUS(..., INVALID_ARGUMENT, ...)`). -/
inductive CStatus where
  | ok
  | invalidArgument (msg : String)
deriving DecidableEq, Repr

/-- `CustomOpKernel::Compute`: invokes the plugin's `KernelCompute` on the
context and unconditionally returns `Status::OK()`.  The plugin's result value
(`KernelCompute` returns `void`; the type is abstract here) is paired up so the
statement can say the plugin was actually invoked. -/
def customOpKernelCompute {Ctx PluginResult : Type}
    (kernelComputeImpl : Ctx → PluginResult) (ctx : Ctx) : PluginResult × CStatus :=
  (kernelComputeImpl ctx, .ok)

/-! ## CopyDataFromVectorToMemory and the attribute-array accessors
(custom_ops.cc lines 113–151) -/

/-- `CopyDataFromVectorToMemory<T>`: `out = none` models a null `out` pointer;
a caller buffer is a list of the caller's current cell contents.  Returns
(status, value stored through `size`, caller buffer after the call). -/
def CopyDataFromVectorToMemory {α : Type} (values : List α) (out : Option (List α))
    (size : Nat) : CStatus × Nat × Option (List α) :=
  match out with
  | none => (.ok, values.length, none)
  | some buf =>
      if values.length ≤ size then
        (.ok, values.length, some (values ++ buf.drop values.length))
      else
        (.invalidArgument "Result buffer is not large enough", values.length, some buf)

/-- Attribute store lookup (`OpKernelInfo::GetAttrs`): the node's attributes as
an association list. -/
def lookupAttr {α : Type} : List (String × List α) → String → Option (List α)
  | [], _ => none
  | (n, vs) :: rest, m => if n = m then some vs else lookupAttr rest m

/-- `KernelInfoGetAttributeArray_float` / `_int64`: fetch the attribute, then
run `CopyDataFromVectorToMemory`; a failed attribute lookup propagates the
lookup error and touches neither `size` nor the buffer. -/
def KernelInfoGetAttributeArray {α : Type} (attrs : List (String × List α))
    (name : String) (out : Option (List α)) (size : Nat) :
    CStatus × Nat × Option (List α) :=
  match lookupAttr attrs name with
  | some values => CopyDataFromVectorToMemory values out size
  | none => (.invalidArgument ("No attribute with name:'" ++ name ++ "'is defined."), size, out)

/-! ## Schema creation (custom_ops.cc lines 427–507, first descriptor of a
name in `CreateCustomRegistry`) -/

/-- The option/homogeneity/min-arity determination for input `i` of
`input_count` (lines 437–456): defaults `Single`/homogeneous/arity 1; the
characteristic is queried only from API version 8 onwards; `Variadic` takes
effect only from version 14 onwards and `ORT_ENFORCE`s that `i` is the last
input before querying the variadic min-arity and homogeneity. -/
def inputOptionStep (op : OrtCustomOp) (input_count i : Nat) :
    Except String (FormalParameterOption × Bool × Int) × List OpQuery :=
  if 8 ≤ op.version then
    let c := op.getInputCharacteristic i
    if c = .inputOutputOptional then
      (.ok (.optional, true, 1), [.inputChar i])
    else if 14 ≤ op.version ∧ c = .inputOutputVariadic then
      if i = input_count - 1 then
        (.ok (.variadic, op.variadicInputHomogeneity != 0, op.variadicInputMinArity),
         [.inputChar i, .varInMinArity, .varInHomog])
      else
        (.error "Only the last input to a custom op may be marked variadic.", [.inputChar i])
    else
      (.ok (.single, true, 1), [.inputChar i])
  else
    (.ok (.single, true, 1), [])

/-- Same determination for output `i` of `output_count` (lines 471–491). -/
def outputOptionStep (op : OrtCustomOp) (output_count i : Nat) :
    Except String (FormalParameterOption × Bool × Int) × List OpQuery :=
  if 8 ≤ op.version then
    let c := op.getOutputCharacteristic i
    if c = .inputOutputOptional then
      (.ok (.optional, true, 1), [.outputChar i])
    else if 14 ≤ op.version ∧ c = .inputOutputVariadic then
      if i = output_count - 1 then
        (.ok (.variadic, op.variadicOutputHomogeneity != 0, op.variadicOutputMinArity),
         [.outputChar i, .varOutMinArity, .varOutHomog])
      else
        (.error "Only the last output to a custom op may be marked variadic.", [.outputChar i])
    else
      (.ok (.single, true, 1), [.outputChar i])
  else
    (.ok (.single, true, 1), [])

/-- Processing of input `i` during schema creation (lines 436–469): after the
option determination, `GetInputType` is queried; an `UNDEFINED` type yields the
type string `"T<undefined>"` and bumps the `undefined` counter, a concrete type
yields the type string `"Input<i>"`. -/
def buildInputParam (op : OrtCustomOp) (input_count i undefined : Nat) :
    Except String (FormalParameter × Nat) × List OpQuery :=
  match inputOptionStep op input_count i with
  | (.error e, q) => (.error e, q)
  | (.ok (opt, homog, arity), q) =>
      let ty := op.getInputType i
      if ty = .undefined then
        (.ok ({ name := "Input" ++ toString i, typeStr := "T" ++ toString undefined,
                option := opt, isHomogeneous := homog, minArity := arity }, undefined + 1),
         q ++ [.inputType i])
      else
        (.ok ({ name := "Input" ++ toString i, typeStr := "Input" ++ toString i,
                option := opt, isHomogeneous := homog, minArity := arity }, undefined),
         q ++ [.inputType i])

/-- Processing of output `i` during schema creation (lines 471–503): after the
option determination, `GetOutputType` is queried; an `UNDEFINED` output
additionally queries `GetOutputCharacteristic` unconditionally and, when that
characteristic is `REQUIRED`, `ORT_ENFORCE`s that exactly one undefined input
type was encountered; the undefined output's type string is always `"T0"`. -/
def buildOutputParam (op : OrtCustomOp) (output_count i undefinedTotal : Nat) :
    Except String FormalParameter × List OpQuery :=
  match outputOptionStep op output_count i with
  | (.error e, q) => (.error e, q)
  | (.ok (opt, homog, arity), q) =>
      let ty := op.getOutputType i
      if ty = .undefined then
        if op.getOutputCharacteristic i = .inputOutputRequired ∧ undefinedTotal ≠ 1 then
          (.error "todo...", q ++ [.outputType i, .outputChar i])
        else
          (.ok { name := "Output" ++ toString i, typeStr := "T0",
                 option := opt, isHomogeneous := homog, minArity := arity },
           q ++ [.outputType i, .outputChar i])
      else
        (.ok { name := "Output" ++ toString i, typeStr := "Output" ++ toString i,
               option := opt, isHomogeneous := homog, minArity := arity },
         q ++ [.outputType i])

/-- The input loop of schema creation over the index list `l`, threading the
`undefined` counter. -/
def buildInputsFrom (op : OrtCustomOp) (input_count : Nat) :
    List Nat → Nat → Except String (List FormalParameter × Nat) × List OpQuery
  | [], undefined => (.ok ([], undefined), [])
  | i :: rest, undefined =>
      match buildInputParam op input_count i undefined with
      | (.error e, q) => (.error e, q)
      | (.ok (p, u'), q) =>
          match buildInputsFrom op input_count rest u' with
          | (.error e, q2) => (.error e, q ++ q2)
          | (.ok (ps, uF), q2) => (.ok (p :: ps, uF), q ++ q2)

/-- The output loop of schema creation over the index list `l`; the
`undefined` counter is read-only here. -/
def buildOutputsFrom (op : OrtCustomOp) (output_count undefinedTotal : Nat) :
    List Nat → Except String (List FormalParameter) × List OpQuery
  | [] => (.ok [], [])
  | i :: rest =>
      match buildOutputParam op output_count i undefinedTotal with
      | (.error e, q) => (.error e, q)
      | (.ok p, q) =>
          match buildOutputsFrom op output_count undefinedTotal rest with
          | (.error e, q2) => (.error e, q ++ q2)
          | (.ok ps, q2) => (.ok (p :: ps), q ++ q2)

/-- Schema creation from the first descriptor registered under a name
(lines 432–507). -/
def buildSchema (op : OrtCustomOp) : Except String OpSchema × List OpQuery :=
  match buildInputsFrom op op.inputTypeCount (List.range op.inputTypeCount) 0 with
  | (.error e, q) => (.error e, q)
  | (.ok (ins, undefTotal), q) =>
      match buildOutputsFrom op op.outputTypeCount undefTotal (List.range op.outputTypeCount) with
      | (.error e, q2) => (.error e, q ++ q2)
      | (.ok outs, q2) => (.ok { name := op.name, inputs := ins, outputs := outs }, q ++ q2)

/-! ## Consistency check for repeated names (custom_ops.cc lines 508–572)

Note the source compares the schema's input homogeneity against
`GetVariadicOutputHomogeneity` and the schema's output min-arity against
`GetVariadicInputMinArity`; the embedding reproduces this verbatim. -/

/-- Position `i` of the input consistency check (lines 513–540). -/
def checkInputConsistencyAt (op : OrtCustomOp) (i : Nat) (fp : FormalParameter) :
    Except String Unit × List OpQuery :=
  let c := op.getInputCharacteristic i
  let expected : FormalParameterOption :=
    if c = .inputOutputOptional then .optional
    else if c = .inputOutputVariadic then .variadic
    else .single
  if fp.option ≠ expected then
    (.error "custom op schemas mismatch, input option", [.inputChar i])
  else if fp.isHomogeneous ≠ (op.variadicOutputHomogeneity != 0) then
    (.error "custom op schemas mismatch, input homogeneity", [.inputChar i, .varOutHomog])
  else if fp.minArity ≠ op.variadicInputMinArity then
    (.error "custom op schemas mismatch, input arity", [.inputChar i, .varOutHomog, .varInMinArity])
  else
    (.ok (), [.inputChar i, .varOutHomog, .varInMinArity])

/-- Position `i` of the output consistency check (lines 544–571). -/
def checkOutputConsistencyAt (op : OrtCustomOp) (i : Nat) (fp : FormalParameter) :
    Except String Unit × List OpQuery :=
  let c := op.getOutputCharacteristic i
  let expected : FormalParameterOption :=
    if c = .inputOutputOptional then .optional
    else if c = .inputOutputVariadic then .variadic
    else .single
  if fp.option ≠ expected then
    (.error "custom op schemas mismatch, output option", [.outputChar i])
  else if fp.isHomogeneous ≠ (op.variadicOutputHomogeneity != 0) then
    (.error "custom op schemas mismatch, output homogeneity", [.outputChar i, .varOutHomog])
  else if fp.minArity ≠ op.variadicInputMinArity then
    (.error "custom op schemas mismatch, output arity", [.outputChar i, .varOutHomog, .varInMinArity])
  else
    (.ok (), [.outputChar i, .varOutHomog, .varInMinArity])

/-- The input consistency loop over indexed formal parameters. -/
def checkInputsFrom (op : OrtCustomOp) :
    List (Nat × FormalParameter) → Except String Unit × List OpQuery
  | [] => (.ok (), [])
  | (i, fp) :: rest =>
      match checkInputConsistencyAt op i fp with
      | (.error e, q) => (.error e, q)
      | (.ok _, q) =>
          match checkInputsFrom op rest with
          | (.error e, q2) => (.error e, q ++ q2)
          | (.ok _, q2) => (.ok (), q ++ q2)

/-- The output consistency loop over indexed formal parameters. -/
def checkOutputsFrom (op : OrtCustomOp) :
    List (Nat × FormalParameter) → Except String Unit × List OpQuery
  | [] => (.ok (), [])
  | (i, fp) :: rest =>
      match checkOutputConsistencyAt op i fp with
      | (.error e, q) => (.error e, q)
      | (.ok _, q) =>
          match checkOutputsFrom op rest with
          | (.error e, q2) => (.error e, q ++ q2)
          | (.ok _, q2) => (.ok (), q ++ q2)

/-- Verification of a repeated descriptor against the existing schema
(lines 508–572): count checks, then the position-by-position checks. -/
def checkConsistency (schema : OpSchema) (op : OrtCustomOp) :
    Except String Unit × List OpQuery :=
  if schema.inputs.length ≠ op.inputTypeCount then
    (.error "input count does not match", [])
  else
    match checkInputsFrom op ((List.range schema.inputs.length).zip schema.inputs) with
    | (.error e, q) => (.error e, q)
    | (.ok _, q) =>
        if schema.outputs.length ≠ op.outputTypeCount then
          (.error "output count does not match", q)
        else
          match checkOutputsFrom op ((List.range schema.outputs.length).zip schema.outputs) with
          | (.error e, q2) => (.error e, q ++ q2)
          | (.ok _, q2) => (.ok (), q ++ q2)

/-- Queries made while building the kernel definition for one descriptor
(lines 575–606): `GetInputMemoryType` per input only when `version > 12`,
then the `GetInputType`/`GetOutputType` queries of the type-binding loops. -/
def kernelDefQueries (op : OrtCustomOp) : List OpQuery :=
  (if 12 < op.version then (List.range op.inputTypeCount).map OpQuery.inputMemType else [])
  ++ (List.range op.inputTypeCount).map OpQuery.inputType
  ++ (List.range op.outputTypeCount).map OpQuery.outputType

/-- The type binding contributed by one descriptor (lines 592–606): input
types followed by output types. -/
def opTypeVec (op : OrtCustomOp) : List DType :=
  (List.range op.inputTypeCount).map op.getInputType
  ++ (List.range op.outputTypeCount).map op.getOutputType

/-- Schema map lookup (`schema_map.find(op->GetName(op))`). -/
def lookupSchema : List (String × OpSchema) → String → Option OpSchema
  | [], _ => none
  | (n, s) :: rest, m => if n = m then some s else lookupSchema rest m

/-- `kCudaExecutionProvider` / `kCpuExecutionProvider`. -/
def kCudaExecutionProvider : String := "CUDAExecutionProvider"

def kCpuExecutionProvider : String := "CPUExecutionProvider"

/-- A kernel registration's identity key: (name, domain, version, provider,
TypeBinding). -/
structure KernelRegistration where
  name : String
  domain : String
  sinceVersion : Nat
  provider : String
  typeBinding : List DType
deriving DecidableEq, Repr

/-- Modelled from the spec: `CustomRegistry::RegisterCustomKernel`, invoked at
custom_ops.cc:620 through `ORT_RETURN_IF_ERROR` but implemented outside the
sampled sources, enforces the Kernel Registry uniqueness invariant — "no two
registrations may share identical (name, domain, version, provider,
TypeBinding)"; a duplicate is a fatal `DuplicateError` that aborts the domain,
otherwise the registration is recorded (`Register(registration) → Success |
DuplicateError`). -/
def RegisterCustomKernel (regs : List KernelRegistration) (reg : KernelRegistration) :
    Except String (List KernelRegistration) :=
  if reg ∈ regs then .error "duplicate kernel registration"
  else .ok (regs ++ [reg])

/-- The registration one descriptor contributes (lines 575–620): its name,
the enclosing domain, `SinceVersion(1)`, the declared provider type
defaulting to the CPU provider (lines 608–612), and its type binding. -/
def opKernelRegistration (domain : String) (op : OrtCustomOp) : KernelRegistration :=
  { name := op.name, domain := domain, sinceVersion := 1,
    provider := op.executionProviderType.getD kCpuExecutionProvider,
    typeBinding := opTypeVec op }

/-- Processing of one descriptor inside the per-domain loop of
`CreateCustomRegistry`: create a schema for a new name, or verify consistency
against the existing one; then the kernel-def queries and the
`RegisterCustomKernel` call (line 620), whose duplicate error also aborts the
domain.  The second component is the trace of plugin invocations for this
descriptor. -/
def processOp (domain : String) (m : List (String × OpSchema))
    (regs : List KernelRegistration) (op : OrtCustomOp) :
    Except String (List (String × OpSchema) × List KernelRegistration) × List OpQuery :=
  match lookupSchema m op.name with
  | none =>
      match buildSchema op with
      | (.error e, q) => (.error e, q)
      | (.ok s, q) =>
          match RegisterCustomKernel regs (opKernelRegistration domain op) with
          | .error e => (.error e, q ++ kernelDefQueries op)
          | .ok regs' => (.ok (m ++ [(op.name, s)], regs'), q ++ kernelDefQueries op)
  | some s =>
      match checkConsistency s op with
      | (.error e, q) => (.error e, q)
      | (.ok _, q) =>
          match RegisterCustomKernel regs (opKernelRegistration domain op) with
          | .error e => (.error e, q ++ kernelDefQueries op)
          | .ok regs' => (.ok (m, regs'), q ++ kernelDefQueries op)

/-- The per-domain descriptor loop of `CreateCustomRegistry`: any failure
(schema mismatch or duplicate registration) aborts the whole domain.  Returns
the final schema map, the recorded kernel registrations and the
per-descriptor invocation traces. -/
def createCustomRegistryLoop (domain : String) :
    List (String × OpSchema) → List KernelRegistration → List OrtCustomOp →
    Except String (List (String × OpSchema) × List KernelRegistration) × List (List OpQuery)
  | m, regs, [] => (.ok (m, regs), [])
  | m, regs, op :: rest =>
      match processOp domain m regs op with
      | (.error e, q) => (.error e, [q])
      | (.ok (m', regs'), q) =>
          match createCustomRegistryLoop domain m' regs' rest with
          | (.error e, qs) => (.error e, q :: qs)
          | (.ok res, qs) => (.ok res, q :: qs)

/-- Registration of one custom-op domain. -/
def registerCustomOpDomain (domain : String) (ops : List OrtCustomOp) :
    Except String (List (String × OpSchema) × List KernelRegistration) × List (List OpQuery) :=
  createCustomRegistryLoop domain [] [] ops

/-- The number of undefined input types of a descriptor — the value of the
`undefined` counter after the input loop of schema creation. -/
def undefinedInputCount (op : OrtCustomOp) : Nat :=
  ((List.range op.inputTypeCount).filter (fun i => op.getInputType i = .undefined)).length

/-! ## The synthesized inference function (custom_ops.cc lines 629–671) -/

/-- The inference context: per-input element types (`none` models a null
`getInputType(i)` result) and the current output element types (mutated in
place by the source's lambda). -/
structure InferenceCtx where
  inputTypes : List (Option DType)
  outputTypes : List DType
deriving DecidableEq, Repr

/-- The input scan of one binding (lines 646–657): an undefined supplied type
is skipped, an undefined binding entry overwrites `undef` with the supplied
type (the source has no unanimity check, only a comment), a differing concrete
pair breaks with no match. -/
def scanBindingInputs : List DType → List DType → DType → Bool × DType
  | [], _, undef => (true, undef)
  | _ :: _, [], undef => (true, undef)
  | it :: its, tv :: tvs, undef =>
      if it = .undefined then scanBindingInputs its tvs undef
      else if tv = .undefined then scanBindingInputs its tvs it
      else if tv = it then scanBindingInputs its tvs undef
      else (false, undef)

/-- Output propagation on a match (lines 659–666): the binding's output entry,
with the resolved `undef` substituted where the entry is undefined. -/
def substituteOutputs (undef : DType) (outs : List DType) : List DType :=
  outs.map (fun t => if t = .undefined then undef else t)

/-- The scan over the registered bindings (lines 641–669): a binding whose
size differs from `num_inputs + num_outputs` is skipped; the first binding
whose input scan succeeds supplies the outputs and the scan stops. -/
def findMatchingBinding (input_types : List DType) (num_outputs : Nat) :
    List (List DType) → Option (List DType)
  | [] => none
  | tv :: rest =>
      if tv.length ≠ input_types.length + num_outputs then
        findMatchingBinding input_types num_outputs rest
      else
        match scanBindingInputs input_types tv .undefined with
        | (true, undef) => some (substituteOutputs undef (tv.drop input_types.length))
        | (false, _) => findMatchingBinding input_types num_outputs rest

/-- The synthesized `infer_fn` lambda: collect the input element types
(substituting undefined for null), scan the bindings, and on a match overwrite
the output types; when no binding matches the context is left unmodified and
no error is raised. -/
def infer_fn (type_vecs : List (List DType)) (ctx : InferenceCtx) : InferenceCtx :=
  let input_types := ctx.inputTypes.map (fun o => o.getD .undefined)
  match findMatchingBinding input_types ctx.outputTypes.length type_vecs with
  | none => ctx
  | some outs => { ctx with outputTypes := outs }

/-! ### Declarative descriptions of the matching semantics

`bindingMatchesCode`/`resolvedWildcard` describe what the source computes.
`bindingMatchesSpec`/`inferSpec` are modelled from the spec's words instead
("all wildcard positions in this binding resolve to one consistent concrete
type across the call"), to be compared against the source's behaviour. -/

/-- A binding entry matches a supplied type when the supplied type is
undefined, or the entry is the undefined wildcard, or they are equal — with no
unanimity requirement among the wildcard positions (the code's behaviour). -/
def bindingMatchesCode (input_types tv : List DType) : Bool :=
  (input_types.zip tv).all (fun p => p.1 == .undefined || p.2 == .undefined || p.2 == p.1)

/-- The wildcard type the code ends up with: the supplied concrete type at the
last wildcard position whose supplied type is defined. -/
def resolvedWildcard (input_types tv : List DType) (u : DType) : DType :=
  (input_types.zip tv).foldl
    (fun a p => if p.1 = .undefined then a else if p.2 = .undefined then p.1 else a) u

/-- The defined supplied types sitting at wildcard positions of a binding. -/
def wildcardResolutions (input_types tv : List DType) : List DType :=
  ((input_types.zip tv).filter (fun p => p.1 ≠ .undefined ∧ p.2 = .undefined)).map (fun p => p.1)

/-- Modelled from the spec: a binding matches only if additionally all
wildcard positions resolve to one consistent concrete type. -/
def bindingMatchesSpec (input_types tv : List DType) : Bool :=
  bindingMatchesCode input_types tv &&
    (wildcardResolutions input_types tv).all
      (fun t => t == (wildcardResolutions input_types tv).headD t)

/-- Modelled from the spec: the binding scan with the unanimity requirement. -/
def findMatchingBindingSpec (input_types : List DType) (num_outputs : Nat) :
    List (List DType) → Option (List DType)
  | [] => none
  | tv :: rest =>
      if tv.length ≠ input_types.length + num_outputs then
        findMatchingBindingSpec input_types num_outputs rest
      else if bindingMatchesSpec input_types tv then
        some (substituteOutputs (resolvedWildcard input_types tv .undefined)
          (tv.drop input_types.length))
      else
        findMatchingBindingSpec input_types num_outputs rest

/-- Modelled from the spec: `Infer` as the claim states it, with the
wildcard-unanimity requirement on matching. -/
def inferSpec (type_vecs : List (List DType)) (ctx : InferenceCtx) : InferenceCtx :=
  let input_types := ctx.inputTypes.map (fun o => o.getD .undefined)
  match findMatchingBindingSpec input_types ctx.outputTypes.length type_vecs with
  | none => ctx
  | some outs => { ctx with outputTypes := outs }

/-- A binding is eligible for `inputs`/`num_outputs` when its size fits and
its input scan succeeds (the code's matching condition). -/
def bindingOk (input_types : List DType) (num_outputs : Nat) (tv : List DType) : Bool :=
  tv.length == input_types.length + num_outputs && bindingMatchesCode input_types tv

/-! ## CUDA notification and streams (cuda_stream_handle section,
custom_ops.cc lines 737–825) -/

/-- The `ORT_ENFORCE(device_stream.provider->Type() == kCudaExecutionProvider)`
precondition at the top of `CudaNotification::wait_on_device`. -/
def waitOnDevicePrecheck (providerType : String) : Except String Unit :=
  if providerType = kCudaExecutionProvider then .ok ()
  else .error "provider type mismatch in wait_on_device"

/-- Sequential view of a `CudaNotification`: the atomic ready flag plus
whether the completion marker has been recorded on the producer queue. -/
structure CudaNotification where
  ready : Bool
  eventRecorded : Bool
deriving DecidableEq, Repr

/-- `CudaNotification::CudaNotification` (the `ready_{}` member initializer
default-initializes the atomic flag to false; the event exists but is not yet
recorded anywhere). -/
def CudaNotification.create : CudaNotification :=
  { ready := false, eventRecorded := false }

/-- The two atomic actions the body of `Activate()` performs, in order. -/
inductive NotifAct where
  | recordEvent
  | storeReady
deriving DecidableEq, Repr

/-- `Activate()` as its ordered action list: `cudaEventRecord` on the owning
stream, then `ready_.store(true)`. -/
def activateProgram : List NotifAct := [.recordEvent, .storeReady]

/-- Effect of one `Activate` action on the notification. -/
def applyNotifAct (n : CudaNotification) : NotifAct → CudaNotification
  | .recordEvent => { n with eventRecorded := true }
  | .storeReady => { n with ready := true }

/-- A completed `Activate()` call. -/
def activate (n : CudaNotification) : CudaNotification :=
  activateProgram.foldl applyNotifAct n

/-- Operations enqueued on a native device queue. -/
inductive DevOp where
  | eventRecord
  | waitEvent
deriving DecidableEq, Repr

/-- Program counter of the producer thread executing `Activate()`. -/
inductive ProducerPC where
  | pStart
  | pRecorded
  | pDone
deriving DecidableEq, Repr

/-- Program counter of the consumer thread executing `wait_on_device`:
spinning on the flag, flag observed true, dependency enqueued and returned. -/
inductive ConsumerPC where
  | cSpin
  | cObserved
  | cDone
deriving DecidableEq, Repr

/-- Interleaved state of one producer running `Activate()` and one consumer
running `wait_on_device(consumer_stream)` on the same notification. -/
structure SyncState where
  ready : Bool
  producerQueue : List DevOp
  consumerQueue : List DevOp
  ppc : ProducerPC
  cpc : ConsumerPC
deriving DecidableEq, Repr

/-- One atomic step of either thread.  The producer records the event on its
stream then stores the flag; the consumer's load either observes false (one
`SpinPause` iteration, no state change, no OS yield modelled) or observes
true, after which `cudaStreamWaitEvent` is enqueued on the consumer stream
with no requirement on the producer queue having drained. -/
inductive SyncStep : SyncState → SyncState → Prop
  | record (r : Bool) (pq cq : List DevOp) (c : ConsumerPC) :
      SyncStep ⟨r, pq, cq, .pStart, c⟩ ⟨r, pq ++ [.eventRecord], cq, .pRecorded, c⟩
  | store (r : Bool) (pq cq : List DevOp) (c : ConsumerPC) :
      SyncStep ⟨r, pq, cq, .pRecorded, c⟩ ⟨true, pq, cq, .pDone, c⟩
  | spinFalse (pq cq : List DevOp) (p : ProducerPC) :
      SyncStep ⟨false, pq, cq, p, .cSpin⟩ ⟨false, pq, cq, p, .cSpin⟩
  | loadTrue (pq cq : List DevOp) (p : ProducerPC) :
      SyncStep ⟨true, pq, cq, p, .cSpin⟩ ⟨true, pq, cq, p, .cObserved⟩
  | enqueueWait (r : Bool) (pq cq : List DevOp) (p : ProducerPC) :
      SyncStep ⟨r, pq, cq, p, .cObserved⟩ ⟨r, pq, cq ++ [.waitEvent], p, .cDone⟩

/-- Initial state: the notification freshly created (`ready = false`, nothing
recorded), producer about to run `Activate()`, consumer entering the spin
loop of `wait_on_device`. -/
def syncInit : SyncState := ⟨false, [], [], .pStart, .cSpin⟩

/-- Reachability from the initial state under the interleaving. -/
inductive SyncReach : SyncState → Prop
  | base : SyncReach syncInit
  | step {s s' : SyncState} : SyncReach s → SyncStep s s' → SyncReach s'

/-- Inductive invariant of the producer/consumer interleaving: the marker is
on the producer queue once the producer has moved past the record; the flag is
true only once the producer is done; the consumer has left the spin loop only
after observing the flag true; the wait command is on the consumer queue only
once the consumer has finished. -/
def SyncInv (s : SyncState) : Prop :=
  (s.ppc ≠ .pStart → DevOp.eventRecord ∈ s.producerQueue) ∧
  (s.ready = true → s.ppc = .pDone) ∧
  (s.cpc ≠ .cSpin → s.ready = true) ∧
  (DevOp.waitEvent ∈ s.consumerQueue → s.cpc = .cDone)

/-! ## Concrete descriptors used in counterexamples and witnesses -/

/-- The claimed example schema "Foo": bindings
`[(float32,float32)→float32]` and `[(int64,int64)→int64]`. -/
def fooBindings : List (List DType) := [[.float, .float, .float], [.int64, .int64, .int64]]

/-- A version-16 descriptor with one homogeneous variadic input and one
homogeneous variadic output. -/
def opHomA : OrtCustomOp :=
  { name := "bug", version := 16, inputTypeCount := 1, outputTypeCount := 1,
    getInputType := fun _ => .float, getOutputType := fun _ => .float,
    getInputCharacteristic := fun _ => .inputOutputVariadic,
    getOutputCharacteristic := fun _ => .inputOutputVariadic,
    variadicInputMinArity := 2, variadicInputHomogeneity := 1,
    variadicOutputMinArity := 2, variadicOutputHomogeneity := 1,
    getInputMemoryType := fun _ => 0, executionProviderType := none }

/-- Same name and formal-parameter shape as `opHomA` except its variadic
input is declared non-homogeneous — the two shapes disagree at input 0 — and
with int64 concrete types, so its TypeBinding (and hence its kernel
registration key) differs from `opHomA`'s and the duplicate-registration
check does not fire. -/
def opHomB : OrtCustomOp :=
  { opHomA with
    variadicInputHomogeneity := 0,
    getInputType := fun _ => .int64,
    getOutputType := fun _ => .int64 }

/-- A version-5 descriptor (below the characteristic-query threshold 8) with
an undefined (wildcard) output whose characteristic is `OPTIONAL`. -/
def opLowVersion : OrtCustomOp :=
  { name := "low", version := 5, inputTypeCount := 1, outputTypeCount := 1,
    getInputType := fun _ => .float, getOutputType := fun _ => .undefined,
    getInputCharacteristic := fun _ => .inputOutputRequired,
    getOutputCharacteristic := fun _ => .inputOutputOptional,
    variadicInputMinArity := 1, variadicInputHomogeneity := 1,
    variadicOutputMinArity := 1, variadicOutputHomogeneity := 1,
    getInputMemoryType := fun _ => 0, executionProviderType := none }

/-- A version-13 descriptor declaring the `VARIADIC` characteristic on input 0
of 2 (not the last input). -/
def opVar13 : OrtCustomOp :=
  { name := "v13", version := 13, inputTypeCount := 2, outputTypeCount := 1,
    getInputType := fun _ => .float, getOutputType := fun _ => .float,
    getInputCharacteristic := fun _ => .inputOutputVariadic,
    getOutputCharacteristic := fun _ => .inputOutputRequired,
    variadicInputMinArity := 1, variadicInputHomogeneity := 1,
    variadicOutputMinArity := 1, variadicOutputHomogeneity := 1,
    getInputMemoryType := fun _ => 0, executionProviderType := none }

/-- The same descriptor at version 14, where the variadic characteristic takes
effect. -/
def opVar14 : OrtCustomOp := { opVar13 with version := 14 }

/-- A descriptor with an undefined `REQUIRED` output but zero undefined
inputs. -/
def opReq : OrtCustomOp :=
  { opLowVersion with getOutputCharacteristic := fun _ => .inputOutputRequired }

/-! # Theorems -/

/-! ## Helper lemmas for the interleaved notification semantics -/

lemma syncInv_init : SyncInv syncInit := by
  refine ⟨?_, ?_, ?_, ?_⟩ <;> simp [syncInit, SyncInv]

lemma syncInv_step {s s' : SyncState} (h : SyncStep s s') (hi : SyncInv s) : SyncInv s' := by
  obtain ⟨h1, h2, h3, h4⟩ := hi
  cases h with
  | record r pq cq c =>
      refine ⟨fun _ => ?_, fun hr => ?_, fun hc => ?_, fun hw => ?_⟩
      · simp
      · exact absurd (h2 hr) (by simp)
      · exact h3 hc
      · exact h4 hw
  | store r pq cq c =>
      refine ⟨fun _ => h1 (by simp), fun _ => rfl, fun _ => rfl, fun hw => h4 hw⟩
  | spinFalse pq cq p =>
      exact ⟨h1, h2, h3, h4⟩
  | loadTrue pq cq p =>
      refine ⟨h1, fun _ => h2 rfl, fun _ => rfl, fun hw => absurd (h4 hw) (by simp)⟩
  | enqueueWait r pq cq p =>
      refine ⟨h1, h2, fun _ => h3 (by simp), fun _ => rfl⟩

lemma syncReach_inv {s : SyncState} (h : SyncReach s) : SyncInv s := by
  induction h with
  | base => exact syncInv_init
  | step _ hstep ih => exact syncInv_step hstep ih

/-- Claim C3: a custom op whose declared version exceeds the host's maximum
supported API version fails kernel construction fatally with an "Unsupported
version" error before the plugin's `CreateKernel` or `KernelCompute` is
invoked (the call trace is empty); a version not exceeding the maximum
proceeds to call the plugin's `CreateKernel`. -/
theorem customOpKernel_version_gate :
    ∀ (v host : Nat) (opName : String),
      (host < v → customOpKernelConstruct v host opName =
        (.error ("Unsupported version '" ++ toString v ++ "' in custom op '" ++ opName), [])) ∧
      (v ≤ host → customOpKernelConstruct v host opName = (.ok (), [.createKernel])) := by
  intro v host opName
  constructor
  · intro h
    simp [customOpKernelConstruct, h]
  · intro h
    simp [customOpKernelConstruct, Nat.not_lt.mpr h]

/-- Witness for `customOpKernel_version_gate` at versions 5 > 3 and 2 ≤ 3. -/
theorem customOpKernel_version_gate_witness :
    customOpKernelConstruct 5 3 "x" =
      (.error ("Unsupported version '" ++ toString 5 ++ "' in custom op '" ++ "x"), []) ∧
    customOpKernelConstruct 2 3 "x" = (.ok (), [.createKernel]) :=
  ⟨(customOpKernel_version_gate 5 3 "x").1 (by decide),
   (customOpKernel_version_gate 2 3 "x").2 (by decide)⟩

/-- Claim C9: `CustomOpKernel::Compute` invokes the plugin's `KernelCompute`
and then unconditionally returns `Status::OK()`, for every kernel
implementation and every context, so no plugin failure is observable through
the returned status. -/
theorem customOpKernel_compute_always_ok :
    ∀ {Ctx PluginResult : Type} (impl : Ctx → PluginResult) (ctx : Ctx),
      (customOpKernelCompute impl ctx).2 = CStatus.ok ∧
      (customOpKernelCompute impl ctx).1 = impl ctx := by
  intro _ _ impl ctx
  exact ⟨rfl, rfl⟩

/-- Claim C6: for an attribute array of `n` elements, a null output buffer
yields success with `*size = n`; a non-null buffer with `*size < n` yields the
distinguished "buffer too small" error, sets `*size = n` and leaves the buffer
unmodified; a non-null buffer with `*size ≥ n` copies exactly the `n` elements
(cells beyond `n` are untouched) and sets `*size = n`. -/
theorem attribute_array_buffer_contract :
    ∀ {α : Type} (attrs : List (String × List α)) (attrName : String)
      (values buf : List α) (size : Nat),
      lookupAttr attrs attrName = some values →
      (KernelInfoGetAttributeArray attrs attrName none size = (.ok, values.length, none)) ∧
      (size < values.length →
        KernelInfoGetAttributeArray attrs attrName (some buf) size =
          (.invalidArgument "Result buffer is not large enough", values.length, some buf)) ∧
      (values.length ≤ size →
        KernelInfoGetAttributeArray attrs attrName (some buf) size =
          (.ok, values.length, some (values ++ buf.drop values.length))) := by
  intro α attrs attrName values buf size hlook
  refine ⟨?_, ?_, ?_⟩
  · simp [KernelInfoGetAttributeArray, hlook, CopyDataFromVectorToMemory]
  · intro h
    simp [KernelInfoGetAttributeArray, hlook, CopyDataFromVectorToMemory, Nat.not_le.mpr h]
  · intro h
    simp [KernelInfoGetAttributeArray, hlook, CopyDataFromVectorToMemory, h]

/-- Witness for `attribute_array_buffer_contract` on the int64 attribute
`"a" = [1,2,3]` with a 4-cell buffer and sizes 0, 2 and 4. -/
theorem attribute_array_buffer_contract_witness :
    KernelInfoGetAttributeArray [("a", [(1 : Int), 2, 3])] "a" (none : Option (List Int)) 0 =
      (.ok, 3, none) ∧
    KernelInfoGetAttributeArray [("a", [(1 : Int), 2, 3])] "a" (some [9, 9, 9, 9]) 2 =
      (.invalidArgument "Result buffer is not large enough", 3, some [9, 9, 9, 9]) ∧
    KernelInfoGetAttributeArray [("a", [(1 : Int), 2, 3])] "a" (some [9, 9, 9, 9]) 4 =
      (.ok, 3, some [1, 2, 3, 9]) := by
  have h0 := (attribute_array_buffer_contract [("a", [(1 : Int), 2, 3])] "a" [1, 2, 3]
    [] 0 (by decide)).1
  have h2 := (attribute_array_buffer_contract [("a", [(1 : Int), 2, 3])] "a" [1, 2, 3]
    [9, 9, 9, 9] 2 (by decide)).2.1 (by decide)
  have h4 := (attribute_array_buffer_contract [("a", [(1 : Int), 2, 3])] "a" [1, 2, 3]
    [9, 9, 9, 9] 4 (by decide)).2.2 (by decide)
  exact ⟨h0.trans (by decide), h2.trans (by decide), h4.trans (by decide)⟩

/-- Claim C5: a freshly created notification has `ready = false`; `Activate()`
records the completion marker on the owning stream's queue and only afterwards
stores true into the ready flag (the record strictly precedes the store in the
activation program, and in every reachable interleaved state a true flag
implies the marker is already enqueued); once `Activate()` has run, `ready`
is true. -/
theorem notification_ready_lifecycle :
    CudaNotification.create.ready = false ∧
    (∀ n, (activate n).ready = true) ∧
    (∀ n, (activate n).eventRecorded = true) ∧
    activateProgram.indexOf NotifAct.recordEvent < activateProgram.indexOf NotifAct.storeReady ∧
    (∀ s : SyncState, SyncReach s → s.ready = true → DevOp.eventRecord ∈ s.producerQueue) := by
  refine ⟨rfl, fun n => rfl, fun n => rfl, by decide, ?_⟩
  intro s hs hr
  obtain ⟨h1, h2, _, _⟩ := syncReach_inv hs
  exact h1 (by simp [h2 hr])

/-- Witness for `notification_ready_lifecycle`: the state reached by running
`Activate()` to completion while the consumer still spins has the marker on
the producer queue. -/
theorem notification_ready_lifecycle_witness :
    DevOp.eventRecord ∈
      (⟨true, [DevOp.eventRecord], [], .pDone, .cSpin⟩ : SyncState).producerQueue := by
  have hr : SyncReach ⟨true, [DevOp.eventRecord], [], .pDone, .cSpin⟩ :=
    SyncReach.step (SyncReach.step SyncReach.base (SyncStep.record false [] [] .cSpin))
      (SyncStep.store false [DevOp.eventRecord] [] .cSpin)
  exact notification_ready_lifecycle.2.2.2.2 _ hr rfl

/-- Claim C4: under the provider-type precondition (which accepts exactly the
CUDA provider), `wait_on_device` never enqueues the cross-queue wait before
the ready flag has been observed true: in every reachable state of the
producer/consumer interleaving, the wait command on the consumer queue implies
the flag is true and the marker was recorded before it; while the flag is
false the consumer only spins (no state change, nothing enqueued); and once
the flag has been observed true the wait is enqueued and the call returns in
one step with no requirement on the producer queue having drained. -/
theorem wait_on_device_orders_after_activate :
    (∀ p, waitOnDevicePrecheck p = .ok () ↔ p = kCudaExecutionProvider) ∧
    (∀ s : SyncState, SyncReach s → DevOp.waitEvent ∈ s.consumerQueue →
      s.ready = true ∧ DevOp.eventRecord ∈ s.producerQueue) ∧
    (∀ s s' : SyncState, SyncStep s s' → s.ready = false → s.cpc = .cSpin →
      s'.cpc = .cSpin ∧ s'.consumerQueue = s.consumerQueue) ∧
    (∀ (r : Bool) (pq cq : List DevOp) (p : ProducerPC),
      SyncStep ⟨r, pq, cq, p, .cObserved⟩ ⟨r, pq, cq ++ [DevOp.waitEvent], p, .cDone⟩) := by
  refine ⟨?_, ?_, ?_, ?_⟩
  · intro p
    constructor
    · intro h
      by_contra hne
      simp [waitOnDevicePrecheck, hne] at h
    · intro h
      simp [waitOnDevicePrecheck, h]
  · intro s hs hw
    obtain ⟨h1, h2, h3, h4⟩ := syncReach_inv hs
    have hr : s.ready = true := h3 (by simp [h4 hw])
    exact ⟨hr, h1 (by simp [h2 hr])⟩
  · intro s s' hstep hr hc
    cases hstep with
    | record r pq cq c => exact ⟨hc, rfl⟩
    | store r pq cq c => exact ⟨hc, rfl⟩
    | spinFalse pq cq p => exact ⟨rfl, rfl⟩
    | loadTrue pq cq p => exact absurd hr (by simp)
    | enqueueWait r pq cq p => exact absurd hc (by simp)
  · intro r pq cq p
    exact SyncStep.enqueueWait r pq cq p

/-- Witness for `wait_on_device_orders_after_activate`: in the state reached
by record, store, load-true, enqueue, the enqueued wait implies the flag was
true with the marker recorded. -/
theorem wait_on_device_orders_after_activate_witness :
    (⟨true, [DevOp.eventRecord], [DevOp.waitEvent], .pDone, .cDone⟩ : SyncState).ready = true ∧
    DevOp.eventRecord ∈
      (⟨true, [DevOp.eventRecord], [DevOp.waitEvent], .pDone, .cDone⟩ : SyncState).producerQueue := by
  have hr : SyncReach ⟨true, [DevOp.eventRecord], [DevOp.waitEvent], .pDone, .cDone⟩ :=
    SyncReach.step
      (SyncReach.step
        (SyncReach.step
          (SyncReach.step SyncReach.base (SyncStep.record false [] [] .cSpin))
          (SyncStep.store false [DevOp.eventRecord] [] .cSpin))
        (SyncStep.loadTrue [DevOp.eventRecord] [] .pDone))
      (SyncStep.enqueueWait true [DevOp.eventRecord] [] .pDone)
  exact wait_on_device_orders_after_activate.2.1 _ hr (by simp)

/-- Counterexample to claim C1: on the single binding `(T,T) → T` (all
wildcard) and concrete inputs `[float32, int64]`, the spec-worded matcher
(`inferSpec`, requiring wildcard unanimity) leaves the outputs unmodified,
but the source's lambda matches anyway — the last wildcard wins and the
output becomes `int64` — so the two functions differ at this input. -/
theorem infer_fn_wildcard_unanimity_counterexample :
    infer_fn [[.undefined, .undefined, .undefined]]
        ⟨[some .float, some .int64], [.undefined]⟩ =
      ⟨[some .float, some .int64], [.int64]⟩ ∧
    inferSpec [[.undefined, .undefined, .undefined]]
        ⟨[some .float, some .int64], [.undefined]⟩ =
      ⟨[some .float, some .int64], [.undefined]⟩ ∧
    infer_fn [[.undefined, .undefined, .undefined]]
        ⟨[some .float, some .int64], [.undefined]⟩ ≠
      inferSpec [[.undefined, .undefined, .undefined]]
        ⟨[some .float, some .int64], [.undefined]⟩ := by
  exact ⟨by decide, by decide, by decide⟩

/-- Claim C2 (code bug): two descriptors under one name whose input-0
variadic homogeneity disagrees pass the consistency check and the whole
domain — schema checks and kernel registrations included — registers
successfully, because the source compares the schema's input homogeneity
against `GetVariadicOutputHomogeneity` (and the schema's output min-arity
against `GetVariadicInputMinArity`); its own error message ("... input to
keep same homogeneity") documents the intended like-for-like comparison.
The two descriptors' registration keys differ (distinct TypeBindings), so
the success is not excused by the duplicate-registration path — which is
live in this model: registering the very same descriptor twice aborts. -/
theorem consistency_check_accepts_homogeneity_mismatch :
    opHomA.name = opHomB.name ∧
    opHomA.getInputCharacteristic 0 = .inputOutputVariadic ∧
    opHomB.getInputCharacteristic 0 = .inputOutputVariadic ∧
    opHomA.variadicInputHomogeneity = 1 ∧
    opHomB.variadicInputHomogeneity = 0 ∧
    opKernelRegistration "custom" opHomA ≠ opKernelRegistration "custom" opHomB ∧
    exceptIsOk (registerCustomOpDomain "custom" [opHomA, opHomB]).1 = true ∧
    exceptIsOk (registerCustomOpDomain "custom" [opHomA, opHomA]).1 = false := by
  exact ⟨rfl, rfl, rfl, rfl, rfl, by decide, by decide, by decide⟩

/-- Counterexample to claim C7: `opLowVersion` has version 5 < 8, yet schema
creation (which succeeds) invokes `GetOutputCharacteristic` for its undefined
output — the unconditional query at the `UNDEFINED`-output branch is not
version-gated. -/
theorem characteristic_query_below_v8_counterexample :
    opLowVersion.version < 8 ∧
    OpQuery.outputChar 0 ∈ (buildSchema opLowVersion).2 ∧
    exceptIsOk (buildSchema opLowVersion).1 = true := by
  exact ⟨by decide, by decide, by decide⟩

/-- Counterexample to claim C8: `opVar13` (version 13 < 14) declares the
`VARIADIC` characteristic on input 0 of 2 — not the last input — yet schema
creation succeeds (the characteristic is silently recorded as `Single`)
instead of rejecting the descriptor. -/
theorem nonlast_variadic_accepted_below_v14 :
    opVar13.getInputCharacteristic 0 = .inputOutputVariadic ∧
    opVar13.inputTypeCount = 2 ∧
    (0 : Nat) ≠ opVar13.inputTypeCount - 1 ∧
    exceptIsOk (buildSchema opVar13).1 = true := by
  exact ⟨rfl, rfl, by decide, by decide⟩

/-! ## Helper lemmas for the inference-function scan -/

lemma scanBindingInputs_spec :
    ∀ (its tvs : List DType) (u : DType),
      (scanBindingInputs its tvs u).1 = bindingMatchesCode its tvs ∧
      (bindingMatchesCode its tvs = true →
        (scanBindingInputs its tvs u).2 = resolvedWildcard its tvs u) := by
  intro its
  induction its with
  | nil =>
      intro tvs u
      constructor
      · simp [scanBindingInputs, bindingMatchesCode]
      · intro _
        simp [scanBindingInputs, resolvedWildcard]
  | cons it its ih =>
      intro tvs u
      cases tvs with
      | nil =>
          constructor
          · simp [scanBindingInputs, bindingMatchesCode]
          · intro _
            simp [scanBindingInputs, resolvedWildcard]
      | cons tv tvs =>
          by_cases h1 : it = ONNXTensorElementDataType.undefined
          · subst h1
            have hm : bindingMatchesCode (ONNXTensorElementDataType.undefined :: its) (tv :: tvs)
                = bindingMatchesCode its tvs := by
              simp [bindingMatchesCode]
            constructor
            · rw [hm]
              simpa [scanBindingInputs] using (ih tvs u).1
            · intro h
              rw [hm] at h
              have := (ih tvs u).2 h
              simpa [scanBindingInputs, resolvedWildcard] using this
          · by_cases h2 : tv = ONNXTensorElementDataType.undefined
            · subst h2
              have hm : bindingMatchesCode (it :: its)
                  (ONNXTensorElementDataType.undefined :: tvs) = bindingMatchesCode its tvs := by
                simp [bindingMatchesCode]
              constructor
              · rw [hm]
                simpa [scanBindingInputs, h1] using (ih tvs it).1
              · intro h
                rw [hm] at h
                have := (ih tvs it).2 h
                simpa [scanBindingInputs, resolvedWildcard, h1] using this
            · by_cases h3 : tv = it
              · subst h3
                have hm : bindingMatchesCode (tv :: its) (tv :: tvs)
                    = bindingMatchesCode its tvs := by
                  simp [bindingMatchesCode]
                constructor
                · rw [hm]
                  simpa [scanBindingInputs, h1, h2] using (ih tvs u).1
                · intro h
                  rw [hm] at h
                  have := (ih tvs u).2 h
                  simpa [scanBindingInputs, resolvedWildcard, h1, h2] using this
              · have hm : bindingMatchesCode (it :: its) (tv :: tvs) = false := by
                  simp [bindingMatchesCode, h1, h2, h3]
                constructor
                · rw [hm]
                  simp [scanBindingInputs, h1, h2, h3]
                · intro h
                  rw [hm] at h
                  exact absurd h (by simp)

lemma scanBindingInputs_eq_of_ok {its tvs : List DType}
    (h : bindingMatchesCode its tvs = true) (u : DType) :
    scanBindingInputs its tvs u = (true, resolvedWildcard its tvs u) := by
  obtain ⟨h1, h2⟩ := scanBindingInputs_spec its tvs u
  have ha : (scanBindingInputs its tvs u).1 = true := by rw [h1, h]
  have hb := h2 h
  rcases hp : scanBindingInputs its tvs u with ⟨b, d⟩
  rw [hp] at ha hb
  simp at ha hb
  rw [ha, hb]

lemma scanBindingInputs_false_of_no_match {its tvs : List DType}
    (h : bindingMatchesCode its tvs = false) (u : DType) :
    (scanBindingInputs its tvs u).1 = false := by
  rw [(scanBindingInputs_spec its tvs u).1, h]

lemma findMatchingBinding_eq_of_first (its : List DType) (n : Nat) :
    ∀ (tvs : List (List DType)) (k : Nat) (tvk : List DType),
      tvs.get? k = some tvk → bindingOk its n tvk = true →
      (∀ j tvj, j < k → tvs.get? j = some tvj → bindingOk its n tvj = false) →
      findMatchingBinding its n tvs =
        some (substituteOutputs (resolvedWildcard its tvk .undefined) (tvk.drop its.length)) := by
  intro tvs
  induction tvs with
  | nil =>
      intro k tvk hget
      simp at hget
  | cons tv rest ih =>
      intro k tvk hget hok hfirst
      cases k with
      | zero =>
          have htv : tv = tvk := by simpa using hget
          simp only [bindingOk, Bool.and_eq_true, beq_iff_eq] at hok
          obtain ⟨hlen, hmc⟩ := hok
          simp only [findMatchingBinding]
          rw [htv, if_neg (by omega), scanBindingInputs_eq_of_ok hmc]
      | succ k' =>
          have h0 : bindingOk its n tv = false :=
            hfirst 0 tv (Nat.succ_pos k') rfl
          have hget' : rest.get? k' = some tvk := by simpa using hget
          have hfirst' : ∀ j tvj, j < k' → rest.get? j = some tvj →
              bindingOk its n tvj = false := by
            intro j tvj hj hg
            exact hfirst (j + 1) tvj (by omega) (by simpa using hg)
          have hrec := ih k' tvk hget' hok hfirst'
          simp only [findMatchingBinding]
          by_cases hlen : tv.length = its.length + n
          · rw [if_neg (by omega)]
            have hmc : bindingMatchesCode its tv = false := by
              simp [bindingOk, hlen] at h0
              exact h0
            rcases hp : scanBindingInputs its tv .undefined with ⟨b, d⟩
            have : b = false := by
              have := scanBindingInputs_false_of_no_match hmc
                ONNXTensorElementDataType.undefined
              rw [hp] at this
              exact this
            subst this
            exact hrec
          · rw [if_pos (by omega)]
            exact hrec

/-- Claim C1, amended: the synthesized inference function scans the bindings
in registration order and selects the first binding of the right size in
which every input position either equals the supplied concrete type, or the
supplied type is undefined, or the binding entry is the undefined wildcard —
with no unanimity requirement among the wildcard positions: the resolved
wildcard type is the supplied concrete type at the last wildcard position
with a defined supplied type (`resolvedWildcard`).  On a match each output
type is set to the binding's output entry with the resolved wildcard
substituted where the entry is undefined, and the scan stops; when no binding
matches, no error is raised and the output types are left unmodified.  The
"Foo" example behaves as claimed. -/
theorem infer_fn_first_match_amended :
    (∀ (type_vecs : List (List DType)) (ctx : InferenceCtx),
      findMatchingBinding (ctx.inputTypes.map (fun o => o.getD .undefined))
          ctx.outputTypes.length type_vecs = none →
      infer_fn type_vecs ctx = ctx) ∧
    (∀ (type_vecs : List (List DType)) (ctx : InferenceCtx) (k : Nat) (tvk : List DType),
      type_vecs.get? k = some tvk →
      bindingOk (ctx.inputTypes.map (fun o => o.getD .undefined))
          ctx.outputTypes.length tvk = true →
      (∀ j tvj, j < k → type_vecs.get? j = some tvj →
        bindingOk (ctx.inputTypes.map (fun o => o.getD .undefined))
          ctx.outputTypes.length tvj = false) →
      infer_fn type_vecs ctx =
        { ctx with outputTypes :=
            (substituteOutputs
              (resolvedWildcard (ctx.inputTypes.map (fun o => o.getD .undefined)) tvk .undefined)
              (tvk.drop ctx.inputTypes.length)) }) ∧
    (infer_fn fooBindings ⟨[some .float, some .float], [.undefined]⟩ =
        ⟨[some .float, some .float], [.float]⟩ ∧
      infer_fn fooBindings ⟨[some .int64, some .int64], [.undefined]⟩ =
        ⟨[some .int64, some .int64], [.int64]⟩ ∧
      infer_fn fooBindings ⟨[some .double, some .double], [.undefined]⟩ =
        ⟨[some .double, some .double], [.undefined]⟩) := by
  refine ⟨?_, ?_, by decide, by decide, by decide⟩
  · intro type_vecs ctx hnone
    simp [infer_fn, hnone]
  · intro type_vecs ctx k tvk hget hok hfirst
    have hfind := findMatchingBinding_eq_of_first
      (ctx.inputTypes.map (fun o => o.getD .undefined)) ctx.outputTypes.length
      type_vecs k tvk hget hok hfirst
    simp only [infer_fn, hfind]
    simp

/-- Witness for `infer_fn_first_match_amended`: the second "Foo" binding is
the first match for int64 inputs. -/
theorem infer_fn_first_match_amended_witness :
    infer_fn fooBindings ⟨[some .int64, some .int64], [.undefined]⟩ =
      ⟨[some .int64, some .int64], [.int64]⟩ := by
  have h := infer_fn_first_match_amended.2.1 fooBindings
      ⟨[some .int64, some .int64], [.undefined]⟩ 1 [.int64, .int64, .int64]
      (by decide) (by decide) ?_
  · exact h.trans (by decide)
  · intro j tvj hj hget
    interval_cases j
    have : tvj = [ONNXTensorElementDataType.float, .float, .float] := by
      simpa [fooBindings] using hget.symm
    subst this
    decide

/-! ## Helper lemmas for schema creation -/

lemma inputOptionStep_lt8 {op : OrtCustomOp} (c i : Nat) (h : op.version < 8) :
    inputOptionStep op c i = (.ok (.single, true, 1), []) := by
  unfold inputOptionStep
  rw [if_neg (by omega)]

lemma outputOptionStep_lt8 {op : OrtCustomOp} (c i : Nat) (h : op.version < 8) :
    outputOptionStep op c i = (.ok (.single, true, 1), []) := by
  unfold outputOptionStep
  rw [if_neg (by omega)]

lemma inputOptionStep_ok_variadic {op : OrtCustomOp} {c i : Nat}
    {opt : FormalParameterOption} {hg : Bool} {ar : Int} {q : List OpQuery}
    (h : inputOptionStep op c i = (.ok (opt, hg, ar), q)) (hv : opt = .variadic) :
    14 ≤ op.version ∧ i = c - 1 := by
  subst hv
  simp only [inputOptionStep] at h
  split_ifs at h with h1 h2 h3 h4 <;> simp_all

lemma outputOptionStep_ok_variadic {op : OrtCustomOp} {c i : Nat}
    {opt : FormalParameterOption} {hg : Bool} {ar : Int} {q : List OpQuery}
    (h : outputOptionStep op c i = (.ok (opt, hg, ar), q)) (hv : opt = .variadic) :
    14 ≤ op.version ∧ i = c - 1 := by
  subst hv
  simp only [outputOptionStep] at h
  split_ifs at h with h1 h2 h3 h4 <;> simp_all

lemma buildInputParam_trace_lt8 {op : OrtCustomOp} (c i u : Nat) (h : op.version < 8) :
    (buildInputParam op c i u).2 = [.inputType i] := by
  simp only [buildInputParam, inputOptionStep_lt8 c i h]
  split <;> simp

lemma buildInputParam_ok_lt8 {op : OrtCustomOp} (c i u : Nat) (h : op.version < 8) :
    ∃ p u', (buildInputParam op c i u).1 = .ok (p, u') ∧
      p.option = .single ∧ p.isHomogeneous = true ∧ p.minArity = 1 := by
  simp only [buildInputParam, inputOptionStep_lt8 c i h]
  split <;> exact ⟨_, _, rfl, rfl, rfl, rfl⟩

lemma buildInputParam_ok_variadic {op : OrtCustomOp} {c i u : Nat}
    {p : FormalParameter} {u' : Nat} {q : List OpQuery}
    (h : buildInputParam op c i u = (.ok (p, u'), q)) (hv : p.option = .variadic) :
    14 ≤ op.version ∧ i = c - 1 := by
  unfold buildInputParam at h
  rcases hstep : inputOptionStep op c i with ⟨res, q0⟩
  rw [hstep] at h
  cases res with
  | error e => simp at h
  | ok triple =>
      rcases triple with ⟨opt, hg, ar⟩
      simp only at h
      have hopt : opt = .variadic := by
        split at h <;>
          (rw [Prod.mk.injEq, Except.ok.injEq, Prod.mk.injEq] at h
           obtain ⟨⟨hp, -⟩, -⟩ := h
           have h2 := hv
           rw [← hp] at h2
           simpa using h2)
      exact inputOptionStep_ok_variadic hstep hopt

lemma buildOutputParam_ok_variadic {op : OrtCustomOp} {c i uT : Nat}
    {p : FormalParameter} {q : List OpQuery}
    (h : buildOutputParam op c i uT = (.ok p, q)) (hv : p.option = .variadic) :
    14 ≤ op.version ∧ i = c - 1 := by
  unfold buildOutputParam at h
  rcases hstep : outputOptionStep op c i with ⟨res, q0⟩
  rw [hstep] at h
  cases res with
  | error e => simp at h
  | ok triple =>
      rcases triple with ⟨opt, hg, ar⟩
      simp only at h
      have hopt : opt = .variadic := by
        split at h
        · split at h
          · simp at h
          · rw [Prod.mk.injEq, Except.ok.injEq] at h
            obtain ⟨hp, -⟩ := h
            have h2 := hv
            rw [← hp] at h2
            simpa using h2
        · rw [Prod.mk.injEq, Except.ok.injEq] at h
          obtain ⟨hp, -⟩ := h
          have h2 := hv
          rw [← hp] at h2
          simpa using h2
      exact outputOptionStep_ok_variadic hstep hopt

lemma buildOutputParam_ok_undefined_typeStr {op : OrtCustomOp} {c i uT : Nat}
    {p : FormalParameter} {q : List OpQuery}
    (h : buildOutputParam op c i uT = (.ok p, q))
    (hu : op.getOutputType i = .undefined) : p.typeStr = "T0" := by
  unfold buildOutputParam at h
  rcases hstep : outputOptionStep op c i with ⟨res, q0⟩
  rw [hstep] at h
  cases res with
  | error e => simp at h
  | ok triple =>
      rcases triple with ⟨opt, hg, ar⟩
      simp only at h
      rw [if_pos hu] at h
      split at h
      · simp at h
      · rw [Prod.mk.injEq, Except.ok.injEq] at h
        obtain ⟨hp, -⟩ := h
        rw [← hp]

lemma buildOutputParam_error_of_required {op : OrtCustomOp} (c i uT : Nat)
    (hu : op.getOutputType i = .undefined)
    (hr : op.getOutputCharacteristic i = .inputOutputRequired)
    (hn : uT ≠ 1) :
    ∃ e q, buildOutputParam op c i uT = (.error e, q) := by
  unfold buildOutputParam
  rcases hstep : outputOptionStep op c i with ⟨res, q0⟩
  cases res with
  | error e => exact ⟨e, q0, rfl⟩
  | ok triple =>
      rcases triple with ⟨opt, hg, ar⟩
      simp only
      rw [if_pos hu, if_pos ⟨hr, hn⟩]
      exact ⟨_, _, rfl⟩

lemma outputOptionStep_error_of_nonlast_variadic {op : OrtCustomOp} (c i : Nat)
    (h14 : 14 ≤ op.version)
    (hv : op.getOutputCharacteristic i = .inputOutputVariadic)
    (hnl : i ≠ c - 1) :
    ∃ e q, outputOptionStep op c i = (.error e, q) := by
  unfold outputOptionStep
  rw [if_pos (by omega)]
  simp only [hv]
  rw [if_neg (by simp), if_pos ⟨h14, trivial⟩, if_neg hnl]
  exact ⟨_, _, rfl⟩

lemma inputOptionStep_error_of_nonlast_variadic {op : OrtCustomOp} (c i : Nat)
    (h14 : 14 ≤ op.version)
    (hv : op.getInputCharacteristic i = .inputOutputVariadic)
    (hnl : i ≠ c - 1) :
    ∃ e q, inputOptionStep op c i = (.error e, q) := by
  unfold inputOptionStep
  rw [if_pos (by omega)]
  simp only [hv]
  rw [if_neg (by simp), if_pos ⟨h14, trivial⟩, if_neg hnl]
  exact ⟨_, _, rfl⟩

lemma buildInputParam_error_of_nonlast_variadic {op : OrtCustomOp} (c i : Nat)
    (h14 : 14 ≤ op.version)
    (hv : op.getInputCharacteristic i = .inputOutputVariadic)
    (hnl : i ≠ c - 1) :
    ∀ u, ∃ e q, buildInputParam op c i u = (.error e, q) := by
  intro u
  obtain ⟨e, q, hstep⟩ := inputOptionStep_error_of_nonlast_variadic c i h14 hv hnl
  unfold buildInputParam
  rw [hstep]
  exact ⟨e, q, rfl⟩

lemma buildOutputParam_error_of_nonlast_variadic {op : OrtCustomOp} (c i : Nat)
    (h14 : 14 ≤ op.version)
    (hv : op.getOutputCharacteristic i = .inputOutputVariadic)
    (hnl : i ≠ c - 1) :
    ∀ uT, ∃ e q, buildOutputParam op c i uT = (.error e, q) := by
  intro uT
  obtain ⟨e, q, hstep⟩ := outputOptionStep_error_of_nonlast_variadic c i h14 hv hnl
  unfold buildOutputParam
  rw [hstep]
  exact ⟨e, q, rfl⟩

lemma buildInputParam_ok_undefined_step {op : OrtCustomOp} {c i u : Nat}
    {p : FormalParameter} {u' : Nat} {q : List OpQuery}
    (h : buildInputParam op c i u = (.ok (p, u'), q)) :
    u' = u + (if op.getInputType i = .undefined then 1 else 0) := by
  unfold buildInputParam at h
  rcases hstep : inputOptionStep op c i with ⟨res, q0⟩
  rw [hstep] at h
  cases res with
  | error e => simp at h
  | ok triple =>
      rcases triple with ⟨opt, hg, ar⟩
      simp only at h
      split at h
      · rw [Prod.mk.injEq, Except.ok.injEq, Prod.mk.injEq] at h
        obtain ⟨⟨-, hu⟩, -⟩ := h
        rename_i hcond
        rw [if_pos hcond]
        omega
      · rw [Prod.mk.injEq, Except.ok.injEq, Prod.mk.injEq] at h
        obtain ⟨⟨-, hu⟩, -⟩ := h
        rename_i hcond
        rw [if_neg hcond]
        omega

lemma outputOptionStep_trace_shape {op : OrtCustomOp} (c i : Nat) :
    ∀ x ∈ (outputOptionStep op c i).2,
      x = OpQuery.outputChar i ∨ x = OpQuery.varOutMinArity ∨ x = OpQuery.varOutHomog := by
  intro x hx
  simp only [outputOptionStep] at hx
  split_ifs at hx <;> simp_all

lemma buildOutputParam_trace_shape {op : OrtCustomOp} (c i uT : Nat) :
    ∀ x ∈ (buildOutputParam op c i uT).2,
      x = OpQuery.outputChar i ∨ x = OpQuery.varOutMinArity ∨ x = OpQuery.varOutHomog ∨
        x = OpQuery.outputType i := by
  intro x hx
  unfold buildOutputParam at hx
  rcases hstep : outputOptionStep op c i with ⟨res, q0⟩
  rw [hstep] at hx
  have hq0 : ∀ y ∈ q0, y = OpQuery.outputChar i ∨ y = OpQuery.varOutMinArity ∨
      y = OpQuery.varOutHomog := by
    intro y hy
    have := @outputOptionStep_trace_shape op c i y
    rw [hstep] at this
    exact this hy
  cases res with
  | error e =>
      simp only at hx
      rcases hq0 x hx with h | h | h
      · exact Or.inl h
      · exact Or.inr (Or.inl h)
      · exact Or.inr (Or.inr (Or.inl h))
  | ok triple =>
      rcases triple with ⟨opt, hg, ar⟩
      simp only at hx
      have hx' : x ∈ q0 ∨ x = OpQuery.outputType i ∨ x = OpQuery.outputChar i := by
        split at hx
        · split at hx <;>
            (simp only at hx
             rw [List.mem_append] at hx
             rcases hx with hx | hx
             · exact Or.inl hx
             · simp at hx
               tauto)
        · simp only at hx
          rw [List.mem_append] at hx
          rcases hx with hx | hx
          · exact Or.inl hx
          · simp at hx
            tauto
      rcases hx' with hx | hx | hx
      · rcases hq0 x hx with h | h | h <;> tauto
      · tauto
      · tauto

lemma inputChar_not_mem_buildOutputParam {op : OrtCustomOp} (c i uT j : Nat) :
    OpQuery.inputChar j ∉ (buildOutputParam op c i uT).2 := by
  intro hmem
  rcases buildOutputParam_trace_shape c i uT _ hmem with h | h | h | h <;> simp at h

lemma mem_trace_buildInputsFrom {op : OrtCustomOp} {c : Nat} :
    ∀ (l : List Nat) (u : Nat) (x : OpQuery),
      x ∈ (buildInputsFrom op c l u).2 →
      ∃ i u', i ∈ l ∧ x ∈ (buildInputParam op c i u').2 := by
  intro l
  induction l with
  | nil =>
      intro u x hx
      simp [buildInputsFrom] at hx
  | cons i rest ih =>
      intro u x hx
      unfold buildInputsFrom at hx
      rcases hp : buildInputParam op c i u with ⟨res, q⟩
      rw [hp] at hx
      cases res with
      | error e =>
          simp only at hx
          exact ⟨i, u, List.mem_cons_self i rest, by rw [hp]; exact hx⟩
      | ok pu =>
          rcases pu with ⟨p, u'⟩
          simp only at hx
          rcases hr : buildInputsFrom op c rest u' with ⟨res2, q2⟩
          rw [hr] at hx
          cases res2 <;>
            (simp only at hx
             rw [List.mem_append] at hx
             rcases hx with hx | hx
             · exact ⟨i, u, List.mem_cons_self i rest, by rw [hp]; exact hx⟩
             · obtain ⟨j, u'', hj, hm⟩ := ih u' x (by rw [hr]; exact hx)
               exact ⟨j, u'', List.mem_cons_of_mem i hj, hm⟩)

lemma mem_trace_buildOutputsFrom {op : OrtCustomOp} {c uT : Nat} :
    ∀ (l : List Nat) (x : OpQuery),
      x ∈ (buildOutputsFrom op c uT l).2 →
      ∃ i, i ∈ l ∧ x ∈ (buildOutputParam op c i uT).2 := by
  intro l
  induction l with
  | nil =>
      intro x hx
      simp [buildOutputsFrom] at hx
  | cons i rest ih =>
      intro x hx
      unfold buildOutputsFrom at hx
      rcases hp : buildOutputParam op c i uT with ⟨res, q⟩
      rw [hp] at hx
      cases res with
      | error e =>
          simp only at hx
          exact ⟨i, List.mem_cons_self i rest, by rw [hp]; exact hx⟩
      | ok p =>
          simp only at hx
          rcases hr : buildOutputsFrom op c uT rest with ⟨res2, q2⟩
          rw [hr] at hx
          cases res2 <;>
            (simp only at hx
             rw [List.mem_append] at hx
             rcases hx with hx | hx
             · exact ⟨i, List.mem_cons_self i rest, by rw [hp]; exact hx⟩
             · obtain ⟨j, hj, hm⟩ := ih x (by rw [hr]; exact hx)
               exact ⟨j, List.mem_cons_of_mem i hj, hm⟩)

lemma mem_trace_buildSchema {op : OrtCustomOp} {x : OpQuery}
    (hx : x ∈ (buildSchema op).2) :
    (∃ i u', x ∈ (buildInputParam op op.inputTypeCount i u').2) ∨
    (∃ i uT, x ∈ (buildOutputParam op op.outputTypeCount i uT).2) := by
  unfold buildSchema at hx
  rcases hi : buildInputsFrom op op.inputTypeCount (List.range op.inputTypeCount) 0
    with ⟨res, q⟩
  rw [hi] at hx
  cases res with
  | error e =>
      simp only at hx
      obtain ⟨i, u', -, hm⟩ := mem_trace_buildInputsFrom _ _ x (by rw [hi]; exact hx)
      exact Or.inl ⟨i, u', hm⟩
  | ok pu =>
      rcases pu with ⟨ins, uT⟩
      simp only at hx
      rcases ho : buildOutputsFrom op op.outputTypeCount uT (List.range op.outputTypeCount)
        with ⟨res2, q2⟩
      rw [ho] at hx
      cases res2 <;>
        (simp only at hx
         rw [List.mem_append] at hx
         rcases hx with hx | hx
         · obtain ⟨i, u', -, hm⟩ := mem_trace_buildInputsFrom _ _ x (by rw [hi]; exact hx)
           exact Or.inl ⟨i, u', hm⟩
         · obtain ⟨i, -, hm⟩ := mem_trace_buildOutputsFrom _ x (by rw [ho]; exact hx)
           exact Or.inr ⟨i, uT, hm⟩)

lemma buildInputsFrom_error_of_mem {op : OrtCustomOp} {c : Nat} {i : Nat}
    (herr : ∀ u, ∃ e q, buildInputParam op c i u = (.error e, q)) :
    ∀ (l : List Nat), i ∈ l → ∀ u, ∃ e q, buildInputsFrom op c l u = (.error e, q) := by
  intro l
  induction l with
  | nil =>
      intro hmem
      simp at hmem
  | cons j rest ih =>
      intro hmem u
      unfold buildInputsFrom
      rcases hp : buildInputParam op c j u with ⟨res, q⟩
      cases res with
      | error e => exact ⟨e, q, rfl⟩
      | ok pu =>
          rcases pu with ⟨p, u'⟩
          simp only
          have hij : i ≠ j := by
            intro hij
            subst hij
            obtain ⟨e, q', he⟩ := herr u
            rw [he] at hp
            simp at hp
          have hrest : i ∈ rest := by
            rcases List.mem_cons.mp hmem with h | h
            · exact absurd h hij
            · exact h
          obtain ⟨e, q2, he⟩ := ih hrest u'
          rw [he]
          exact ⟨e, q ++ q2, rfl⟩

lemma buildOutputsFrom_error_of_mem {op : OrtCustomOp} {c uT : Nat} {i : Nat}
    (herr : ∃ e q, buildOutputParam op c i uT = (.error e, q)) :
    ∀ (l : List Nat), i ∈ l → ∃ e q, buildOutputsFrom op c uT l = (.error e, q) := by
  intro l
  induction l with
  | nil =>
      intro hmem
      simp at hmem
  | cons j rest ih =>
      intro hmem
      unfold buildOutputsFrom
      rcases hp : buildOutputParam op c j uT with ⟨res, q⟩
      cases res with
      | error e => exact ⟨e, q, rfl⟩
      | ok p =>
          simp only
          have hij : i ≠ j := by
            intro hij
            subst hij
            obtain ⟨e, q', he⟩ := herr
            rw [he] at hp
            simp at hp
          have hrest : i ∈ rest := by
            rcases List.mem_cons.mp hmem with h | h
            · exact absurd h hij
            · exact h
          obtain ⟨e, q2, he⟩ := ih hrest
          rw [he]
          exact ⟨e, q ++ q2, rfl⟩

lemma buildInputsFrom_ok_spec {op : OrtCustomOp} {c : Nat} :
    ∀ (l : List Nat) (u : Nat) (ps : List FormalParameter) (uF : Nat) (q : List OpQuery),
      buildInputsFrom op c l u = (.ok (ps, uF), q) →
      ps.length = l.length ∧
      (∀ k p, ps.get? k = some p → ∃ i u' u'' q',
        l.get? k = some i ∧ buildInputParam op c i u' = (.ok (p, u''), q')) := by
  intro l
  induction l with
  | nil =>
      intro u ps uF q h
      simp [buildInputsFrom] at h
      obtain ⟨⟨h1, -⟩, -⟩ := h
      subst h1
      exact ⟨rfl, by intro k p hk; simp at hk⟩
  | cons i rest ih =>
      intro u ps uF q h
      unfold buildInputsFrom at h
      rcases hp : buildInputParam op c i u with ⟨res, q0⟩
      rw [hp] at h
      cases res with
      | error e => simp at h
      | ok pu =>
          rcases pu with ⟨p, u'⟩
          simp only at h
          rcases hr : buildInputsFrom op c rest u' with ⟨res2, q2⟩
          rw [hr] at h
          cases res2 with
          | error e => simp at h
          | ok psu =>
              rcases psu with ⟨ps', uF'⟩
              simp only [Prod.mk.injEq, Except.ok.injEq] at h
              obtain ⟨⟨hps, -⟩, -⟩ := h
              subst hps
              obtain ⟨hlen, hget⟩ := ih u' ps' uF' q2 hr
              constructor
              · simp [hlen]
              · intro k pk hk
                cases k with
                | zero =>
                    simp at hk
                    subst hk
                    exact ⟨i, u, u', q0, rfl, hp⟩
                | succ k' =>
                    simp only [List.get?] at hk ⊢
                    exact hget k' pk hk

lemma buildOutputsFrom_ok_spec {op : OrtCustomOp} {c uT : Nat} :
    ∀ (l : List Nat) (ps : List FormalParameter) (q : List OpQuery),
      buildOutputsFrom op c uT l = (.ok ps, q) →
      ps.length = l.length ∧
      (∀ k p, ps.get? k = some p → ∃ i q',
        l.get? k = some i ∧ buildOutputParam op c i uT = (.ok p, q')) := by
  intro l
  induction l with
  | nil =>
      intro ps q h
      simp [buildOutputsFrom] at h
      obtain ⟨h1, -⟩ := h
      subst h1
      exact ⟨rfl, by intro k p hk; simp at hk⟩
  | cons i rest ih =>
      intro ps q h
      unfold buildOutputsFrom at h
      rcases hp : buildOutputParam op c i uT with ⟨res, q0⟩
      rw [hp] at h
      cases res with
      | error e => simp at h
      | ok p =>
          simp only at h
          rcases hr : buildOutputsFrom op c uT rest with ⟨res2, q2⟩
          rw [hr] at h
          cases res2 with
          | error e => simp at h
          | ok ps' =>
              simp only [Prod.mk.injEq, Except.ok.injEq] at h
              obtain ⟨hps, -⟩ := h
              subst hps
              obtain ⟨hlen, hget⟩ := ih ps' q2 hr
              constructor
              · simp [hlen]
              · intro k pk hk
                cases k with
                | zero =>
                    simp at hk
                    subst hk
                    exact ⟨i, q0, rfl, hp⟩
                | succ k' =>
                    simp only [List.get?] at hk ⊢
                    exact hget k' pk hk

lemma buildInputsFrom_undefined_count {op : OrtCustomOp} {c : Nat} :
    ∀ (l : List Nat) (u : Nat) (ps : List FormalParameter) (uF : Nat) (q : List OpQuery),
      buildInputsFrom op c l u = (.ok (ps, uF), q) →
      uF = u + (l.filter (fun i => op.getInputType i = .undefined)).length := by
  intro l
  induction l with
  | nil =>
      intro u ps uF q h
      simp [buildInputsFrom] at h
      obtain ⟨⟨-, h2⟩, -⟩ := h
      simp [h2]
  | cons i rest ih =>
      intro u ps uF q h
      unfold buildInputsFrom at h
      rcases hp : buildInputParam op c i u with ⟨res, q0⟩
      rw [hp] at h
      cases res with
      | error e => simp at h
      | ok pu =>
          rcases pu with ⟨p, u'⟩
          simp only at h
          rcases hr : buildInputsFrom op c rest u' with ⟨res2, q2⟩
          rw [hr] at h
          cases res2 with
          | error e => simp at h
          | ok psu =>
              rcases psu with ⟨ps', uF'⟩
              simp only [Prod.mk.injEq, Except.ok.injEq] at h
              obtain ⟨⟨-, huF⟩, -⟩ := h
              have hstep := buildInputParam_ok_undefined_step hp
              have hrec := ih u' ps' uF' q2 hr
              by_cases hu : op.getInputType i = ONNXTensorElementDataType.undefined
              · simp only [List.filter_cons, hu]
                simp only [decide_eq_true_eq] at *
                rw [if_pos hu] at hstep
                simp [← huF, hrec, hstep]
                omega
              · simp only [List.filter_cons]
                rw [if_neg hu] at hstep
                simp only [decide_eq_true_eq, if_neg hu]
                rw [← huF, hrec, hstep]
                omega

lemma buildSchema_error_of_input {op : OrtCustomOp} {i : Nat} (hi : i < op.inputTypeCount)
    (herr : ∀ u, ∃ e q, buildInputParam op op.inputTypeCount i u = (.error e, q)) :
    exceptIsOk (buildSchema op).1 = false := by
  obtain ⟨e, q, he⟩ :=
    buildInputsFrom_error_of_mem herr (List.range op.inputTypeCount) (List.mem_range.mpr hi) 0
  unfold buildSchema
  rw [he]
  rfl

lemma buildSchema_error_of_output_at_count {op : OrtCustomOp} {i : Nat}
    (hi : i < op.outputTypeCount)
    (herr : ∃ e q,
      buildOutputParam op op.outputTypeCount i (undefinedInputCount op) = (.error e, q)) :
    exceptIsOk (buildSchema op).1 = false := by
  unfold buildSchema
  rcases hin : buildInputsFrom op op.inputTypeCount (List.range op.inputTypeCount) 0
    with ⟨res, q⟩
  cases res with
  | error e => rfl
  | ok pu =>
      rcases pu with ⟨ins, uT⟩
      have huT : uT = undefinedInputCount op := by
        have := buildInputsFrom_undefined_count (List.range op.inputTypeCount) 0 ins uT q hin
        simpa [undefinedInputCount] using this
      subst huT
      obtain ⟨e, q2, he⟩ :=
        buildOutputsFrom_error_of_mem herr (List.range op.outputTypeCount)
          (List.mem_range.mpr hi)
      simp only
      rw [he]
      rfl

lemma buildSchema_ok_spec {op : OrtCustomOp} {s : OpSchema}
    (h : (buildSchema op).1 = .ok s) :
    (s.inputs.length = op.inputTypeCount ∧
      ∀ k p, s.inputs.get? k = some p → ∃ u' u'' q',
        buildInputParam op op.inputTypeCount k u' = (.ok (p, u''), q')) ∧
    (s.outputs.length = op.outputTypeCount ∧
      ∀ k p, s.outputs.get? k = some p → ∃ q',
        buildOutputParam op op.outputTypeCount k (undefinedInputCount op) = (.ok p, q')) := by
  unfold buildSchema at h
  rcases hin : buildInputsFrom op op.inputTypeCount (List.range op.inputTypeCount) 0
    with ⟨res, q⟩
  rw [hin] at h
  cases res with
  | error e => simp at h
  | ok pu =>
      rcases pu with ⟨ins, uT⟩
      simp only at h
      rcases ho : buildOutputsFrom op op.outputTypeCount uT (List.range op.outputTypeCount)
        with ⟨res2, q2⟩
      rw [ho] at h
      cases res2 with
      | error e => simp at h
      | ok outs =>
          simp only [Except.ok.injEq] at h
          have huT : uT = undefinedInputCount op := by
            have := buildInputsFrom_undefined_count (List.range op.inputTypeCount) 0 ins uT q hin
            simpa [undefinedInputCount] using this
          obtain ⟨hlen_in, hget_in⟩ := buildInputsFrom_ok_spec _ _ _ _ _ hin
          obtain ⟨hlen_out, hget_out⟩ := buildOutputsFrom_ok_spec _ _ _ ho
          subst h
          dsimp only
          have hlin : ins.length = op.inputTypeCount := by simpa using hlen_in
          have hlout : outs.length = op.outputTypeCount := by simpa using hlen_out
          refine ⟨⟨hlin, ?_⟩, ⟨hlout, ?_⟩⟩
          · intro k p hk
            have hkc : k < op.inputTypeCount := by
              by_contra hge
              rw [List.get?_eq_none.mpr (by omega)] at hk
              exact Option.noConfusion hk
            obtain ⟨i, u', u'', q', hl, hbp⟩ := hget_in k p hk
            rw [List.get?_range hkc] at hl
            have hik : i = k := by
              injection hl with hl'
              exact hl'.symm
            subst hik
            exact ⟨u', u'', q', hbp⟩
          · intro k p hk
            have hkc : k < op.outputTypeCount := by
              by_contra hge
              rw [List.get?_eq_none.mpr (by omega)] at hk
              exact Option.noConfusion hk
            obtain ⟨i, q', hl, hbp⟩ := hget_out k p hk
            rw [List.get?_range hkc] at hl
            have hik : i = k := by
              injection hl with hl'
              exact hl'.symm
            subst hik
            rw [← huT]
            exact ⟨q', hbp⟩

/-- Claim C7, amended: during schema creation the characteristic queries
determine a parameter's cardinality option only from version 8 onwards — below
8 the option step makes no plugin call and records `Single`, min-arity 1,
homogeneous, and for 8 ≤ v < 14 a `VARIADIC` characteristic is likewise
recorded as `Single`/1/homogeneous — and `GetInputCharacteristic` is never
invoked by schema creation below version 8; a schema built from a descriptor
below version 14 contains no `Variadic` formal parameter; the per-input
memory-type query is made in the kernel-def phase exactly when version > 12
(once per input).  However (the correction) the duplicate-name consistency
check invokes `GetInputCharacteristic` unconditionally, regardless of
version, and schema creation itself queries `GetOutputCharacteristic`
unconditionally for undefined-typed outputs
(see `characteristic_query_below_v8_counterexample`). -/
theorem version_gating_amended :
    (∀ (op : OrtCustomOp) (c i : Nat), op.version < 8 →
      inputOptionStep op c i = (.ok (.single, true, 1), []) ∧
      outputOptionStep op c i = (.ok (.single, true, 1), [])) ∧
    (∀ (op : OrtCustomOp) (c i : Nat), 8 ≤ op.version → op.version < 14 →
      op.getInputCharacteristic i = .inputOutputVariadic →
      inputOptionStep op c i = (.ok (.single, true, 1), [.inputChar i])) ∧
    (∀ (op : OrtCustomOp), op.version < 8 →
      ∀ j, OpQuery.inputChar j ∉ (buildSchema op).2) ∧
    (∀ (op : OrtCustomOp) (s : OpSchema), (buildSchema op).1 = .ok s → op.version < 14 →
      ∀ p, p ∈ s.inputs ++ s.outputs → p.option ≠ .variadic) ∧
    (∀ (op : OrtCustomOp) (i : Nat),
      OpQuery.inputMemType i ∈ kernelDefQueries op ↔ (12 < op.version ∧ i < op.inputTypeCount)) ∧
    (∀ (op : OrtCustomOp) (i : Nat) (fp : FormalParameter),
      OpQuery.inputChar i ∈ (checkInputConsistencyAt op i fp).2) := by
  refine ⟨?_, ?_, ?_, ?_, ?_, ?_⟩
  · intro op c i h
    exact ⟨inputOptionStep_lt8 c i h, outputOptionStep_lt8 c i h⟩
  · intro op c i h8 h14 hv
    unfold inputOptionStep
    rw [if_pos h8]
    simp only [hv]
    rw [if_neg (by simp), if_neg (fun hc => absurd hc.1 (by omega))]
  · intro op hlt j hmem
    rcases mem_trace_buildSchema hmem with ⟨i, u', hm⟩ | ⟨i, uT, hm⟩
    · rw [buildInputParam_trace_lt8 _ i u' hlt] at hm
      simp at hm
    · exact inputChar_not_mem_buildOutputParam _ i uT j hm
  · intro op s hok h14 p hp hv
    obtain ⟨⟨-, hget_in⟩, ⟨-, hget_out⟩⟩ := buildSchema_ok_spec hok
    rw [List.mem_append] at hp
    rcases hp with hp | hp
    · obtain ⟨k, hk⟩ := List.get?_of_mem hp
      obtain ⟨u', u'', q', hbp⟩ := hget_in k p hk
      obtain ⟨h14', -⟩ := buildInputParam_ok_variadic hbp hv
      omega
    · obtain ⟨k, hk⟩ := List.get?_of_mem hp
      obtain ⟨q', hbp⟩ := hget_out k p hk
      obtain ⟨h14', -⟩ := buildOutputParam_ok_variadic hbp hv
      omega
  · intro op i
    unfold kernelDefQueries
    by_cases h12 : 12 < op.version
    · rw [if_pos h12]
      simp [List.mem_append, List.mem_map, List.mem_range, h12]
    · rw [if_neg h12]
      simp [List.mem_append, List.mem_map, List.mem_range, h12]
  · intro op i fp
    unfold checkInputConsistencyAt
    split_ifs <;> simp only [apply_ite Prod.snd] <;> (repeat' split) <;> simp

/-- Witness for `version_gating_amended`: the version-5 descriptor's input
option step makes no plugin call and records the defaults. -/
theorem version_gating_amended_witness :
    inputOptionStep opLowVersion 1 0 = (.ok (.single, true, 1), []) ∧
    OpQuery.inputChar 0 ∉ (buildSchema opLowVersion).2 :=
  ⟨(version_gating_amended.1 opLowVersion 1 0 (by decide)).1,
   version_gating_amended.2.2.1 opLowVersion (by decide) 0⟩

/-- Claim C8, amended: for descriptors of version ≥ 14 (where the `Variadic`
characteristic takes effect) declaring `VARIADIC` on an input (resp. output)
other than the last aborts schema creation; and in every successfully built
schema a `Variadic` formal parameter occurs only in the last position of its
input or output list.  For versions below 14 the characteristic is silently
recorded as `Single` rather than rejected
(see `nonlast_variadic_accepted_below_v14`). -/
theorem variadic_last_position_amended :
    (∀ (op : OrtCustomOp) (i : Nat), 14 ≤ op.version → i < op.inputTypeCount →
      op.getInputCharacteristic i = .inputOutputVariadic → i ≠ op.inputTypeCount - 1 →
      exceptIsOk (buildSchema op).1 = false) ∧
    (∀ (op : OrtCustomOp) (i : Nat), 14 ≤ op.version → i < op.outputTypeCount →
      op.getOutputCharacteristic i = .inputOutputVariadic → i ≠ op.outputTypeCount - 1 →
      exceptIsOk (buildSchema op).1 = false) ∧
    (∀ (op : OrtCustomOp) (s : OpSchema), (buildSchema op).1 = .ok s →
      (∀ k p, s.inputs.get? k = some p → p.option = .variadic →
        k = s.inputs.length - 1) ∧
      (∀ k p, s.outputs.get? k = some p → p.option = .variadic →
        k = s.outputs.length - 1)) := by
  refine ⟨?_, ?_, ?_⟩
  · intro op i h14 hi hv hnl
    exact buildSchema_error_of_input hi
      (buildInputParam_error_of_nonlast_variadic op.inputTypeCount i h14 hv hnl)
  · intro op i h14 hi hv hnl
    exact buildSchema_error_of_output_at_count hi
      (buildOutputParam_error_of_nonlast_variadic op.outputTypeCount i h14 hv hnl
        (undefinedInputCount op))
  · intro op s hok
    obtain ⟨⟨hlin, hget_in⟩, ⟨hlout, hget_out⟩⟩ := buildSchema_ok_spec hok
    constructor
    · intro k p hk hv
      obtain ⟨u', u'', q', hbp⟩ := hget_in k p hk
      obtain ⟨-, hlast⟩ := buildInputParam_ok_variadic hbp hv
      omega
    · intro k p hk hv
      obtain ⟨q', hbp⟩ := hget_out k p hk
      obtain ⟨-, hlast⟩ := buildOutputParam_ok_variadic hbp hv
      omega

/-- Witness for `variadic_last_position_amended`: at version 14 the non-last
variadic input of `opVar14` aborts schema creation. -/
theorem variadic_last_position_amended_witness :
    exceptIsOk (buildSchema opVar14).1 = false :=
  variadic_last_position_amended.1 opVar14 0 (by decide) (by decide) rfl (by decide)

/-- Claim C10: in every successfully built schema, an output declared with the
undefined (wildcard) type is bound to the type variable "T0", whichever input
position introduced a wildcard; and if an undefined output has the `REQUIRED`
characteristic while the number of undefined input types encountered for the
descriptor is not exactly one, schema creation aborts. -/
theorem undefined_output_binds_T0 :
    (∀ (op : OrtCustomOp) (s : OpSchema), (buildSchema op).1 = .ok s →
      ∀ k p, s.outputs.get? k = some p → op.getOutputType k = .undefined →
        p.typeStr = "T0") ∧
    (∀ (op : OrtCustomOp) (k : Nat), k < op.outputTypeCount →
      op.getOutputType k = .undefined →
      op.getOutputCharacteristic k = .inputOutputRequired →
      undefinedInputCount op ≠ 1 →
      exceptIsOk (buildSchema op).1 = false) := by
  constructor
  · intro op s hok k p hk hu
    obtain ⟨-, ⟨-, hget_out⟩⟩ := buildSchema_ok_spec hok
    obtain ⟨q', hbp⟩ := hget_out k p hk
    exact buildOutputParam_ok_undefined_typeStr hbp hu
  · intro op k hk hu hr hn
    exact buildSchema_error_of_output_at_count hk
      (buildOutputParam_error_of_required op.outputTypeCount k (undefinedInputCount op) hu hr hn)

/-- Witness for `undefined_output_binds_T0`: `opReq` (undefined `REQUIRED`
output, zero undefined inputs) fails schema creation; `opLowVersion`'s
undefined output is bound to "T0" in its built schema. -/
theorem undefined_output_binds_T0_witness :
    exceptIsOk (buildSchema opReq).1 = false :=
  undefined_output_binds_T0.2 opReq 0 (by decide) rfl rfl (by decide)

/-- Witness for `customOpKernel_compute_always_ok` at a concrete kernel
implementation and context. -/
theorem customOpKernel_compute_always_ok_witness :
    (customOpKernelCompute (fun n : Nat => n + 1) 41).2 = CStatus.ok ∧
    (customOpKernelCompute (fun n : Nat => n + 1) 41).1 = 42 :=
  ⟨(customOpKernel_compute_always_ok (fun n : Nat => n + 1) 41).1,
   ((customOpKernel_compute_always_ok (fun n : Nat => n + 1) 41).2).trans (by decide)⟩
